import Mathlib

/-!
# weather-service-activity-go: the `/weather/` request pipeline

A shallow embedding of `cmd/weather-service-activity/main.go`.

* Go strings are embedded as `String`, processed as their list of runes.
  Every character the program inspects (`-`, the digits, white space) is a
  single code point, so byte-level and rune-level processing agree.
* `float64` is embedded as an integer model of IEEE-754 binary64
  (`Float64`): round to nearest, ties to even, gradual underflow, overflow to
  infinity.  The sign of zero is not represented (Go's `==` does not
  observe it).
* What the program obtains from outside the process (`http.Get`,
  `io.ReadAll`, `json.Unmarshal`, `os.Getenv`, `url.QueryEscape`) is a field
  of `Env`.  The functions that call `http.Get` return their result together
  with the list of URLs they requested.
-/

namespace WeatherService

/-! ## Go `strings` -/

namespace GoStrings

/-- Worker of `replaceAll` for a non-empty `old`: `skip` counts the runes that
are still to be dropped from the occurrence of `old` just found. -/
def replaceAllAux (old new : List Char) : Nat → List Char → List Char
  | _, [] => []
  | skip + 1, _ :: rest => replaceAllAux old new skip rest
  | 0, c :: rest =>
    if old.isPrefixOf (c :: rest) then
      new ++ replaceAllAux old new (old.length - 1) rest
    else
      c :: replaceAllAux old new 0 rest

/-- Go `strings.ReplaceAll(s, old, new)`: every non-overlapping occurrence of
`old`, scanning from the left, is replaced by `new`.  With an empty `old` the
replacement is inserted before every rune and at the end. -/
def replaceAll (s old new : String) : String :=
  match old.data with
  | [] => ⟨new.data ++ s.data.flatMap (fun c => c :: new.data)⟩
  | _ :: _ => ⟨replaceAllAux old.data new.data 0 s.data⟩

/-- Go `strings.TrimPrefix(s, prefix)`. -/
def trimPrefix (s pre : String) : String :=
  if pre.data.isPrefixOf s.data then ⟨s.data.drop pre.data.length⟩ else s

/-- Go `unicode.IsSpace`: the code points with the Unicode White_Space
property. -/
def isSpace (c : Char) : Bool :=
  let n := c.toNat
  (9 ≤ n && n ≤ 13) || n = 32 || n = 0x85 || n = 0xA0 || n = 0x1680 ||
  (0x2000 ≤ n && n ≤ 0x200A) || n = 0x2028 || n = 0x2029 || n = 0x202F ||
  n = 0x205F || n = 0x3000

/-- Go `strings.TrimSpace(s)`: leading and trailing white space removed. -/
def trimSpace (s : String) : String :=
  ⟨((s.data.dropWhile isSpace).reverse.dropWhile isSpace).reverse⟩

end GoStrings

/-! ## The fragment of Go `regexp` used by the validator -/

/-- Regular expressions, as far as the pattern of the validator needs them. -/
inductive Regex where
  /-- The anchor `^` without the multi-line flag: the beginning of the text. -/
  | beginText
  /-- The anchor `$` without the multi-line flag: the end of the text. -/
  | endText
  /-- The Perl class `\d`, which in RE2 syntax is `[0-9]`. -/
  | digit
  /-- Concatenation. -/
  | cat (r s : Regex)
  /-- The counted repetition `r{n}`. -/
  | count (r : Regex) (n : Nat)

namespace Regex

/-- A position in the text: whether it is the beginning of the text, and the
runes that remain. -/
abbrev Pos := Bool × List Char

/-- Apply a matching step `n` times in a row. -/
def iterate (step : Pos → List Pos) : Nat → Pos → List Pos
  | 0, p => [p]
  | n + 1, p => (step p).flatMap (iterate step n)

/-- All positions at which a match of the expression that starts at the given
position can end. -/
def run : Regex → Pos → List Pos
  | beginText, (atStart, s) => if atStart then [(atStart, s)] else []
  | endText, (atStart, s) => if s.isEmpty then [(atStart, s)] else []
  | digit, (_, s) =>
    match s with
    | [] => []
    | c :: rest => if '0' ≤ c ∧ c ≤ '9' then [(false, rest)] else []
  | cat r s, p => (run r p).flatMap (run s)
  | count r n, p => iterate (run r) n p

/-- Search for a match that starts at the given position or at a later one. -/
def search (r : Regex) : Bool → List Char → Bool
  | atStart, [] => !(run r (atStart, [])).isEmpty
  | atStart, c :: rest =>
    !(run r (atStart, c :: rest)).isEmpty || search r false rest

/-- Go `regexp.MatchString` for a parsed pattern: whether the text contains a
match of the expression. -/
def matchString (r : Regex) (s : String) : Bool :=
  search r true s.data

end Regex

/-! ## IEEE-754 binary64 -/

/-- A `float64` value: `finite m e` is the number `m * 2 ^ e`. -/
inductive Float64 where
  | finite (m : Int) (e : Int)
  | inf (negative : Bool)
  | nan
deriving DecidableEq, Repr

namespace Float64

/-- Worker of `log2`: halve `n` until it is below 2, at most `fuel` times. -/
def log2Aux : Nat → Nat → Nat
  | 0, _ => 0
  | fuel + 1, n => if n < 2 then 0 else log2Aux fuel (n / 2) + 1

/-- The number `k` with `2 ^ k ≤ n < 2 ^ (k + 1)`, for positive `n`. -/
def log2 (n : Nat) : Nat :=
  log2Aux n n

/-- The integer `k` with `2 ^ k ≤ n / d < 2 ^ (k + 1)`, for positive `n`
and `d`. -/
def floorLog2 (n d : Nat) : Int :=
  let k : Int := (log2 n : Int) - (log2 d : Int)
  if d * 2 ^ k.toNat ≤ n * 2 ^ (-k).toNat then k else k - 1

/-- Round the exact value `± n / d` (with `d` positive) to binary64: 53
significant bits, no bit below `2 ^ (-1074)`, nearest value with ties to the
even significand, and infinity from `2 ^ 1024` on. -/
def round (negative : Bool) (n d : Nat) : Float64 :=
  if n = 0 then finite 0 0 else
  let q : Int := max (floorLog2 n d - 52) (-1074)
  let num := n * 2 ^ (-q).toNat
  let den := d * 2 ^ q.toNat
  let m0 := num / den
  let r := num % den
  let m := if den < 2 * r ∨ (2 * r = den ∧ m0 % 2 = 1) then m0 + 1 else m0
  if 2 ^ 1024 ≤ m * 2 ^ q.toNat then inf negative
  else finite (if negative then -(m : Int) else m) q

/-- Round the exact value `m * 2 ^ e`. -/
def roundScaled (m e : Int) : Float64 :=
  round (decide (m < 0)) (m.natAbs * 2 ^ e.toNat) (2 ^ (-e).toNat)

/-- The `float64` value of a decimal constant whose exact value is `n / d`. -/
def ofRat (n : Int) (d : Nat) : Float64 :=
  round (decide (n < 0)) n.natAbs d

/-- Multiplication of `float64` values. -/
def mul : Float64 → Float64 → Float64
  | finite m₁ e₁, finite m₂ e₂ => roundScaled (m₁ * m₂) (e₁ + e₂)
  | finite m _, inf b => if m = 0 then nan else inf (decide (m < 0) != b)
  | inf a, finite m _ => if m = 0 then nan else inf (a != decide (m < 0))
  | inf a, inf b => inf (a != b)
  | _, _ => nan

/-- Addition of `float64` values. -/
def add : Float64 → Float64 → Float64
  | finite m₁ e₁, finite m₂ e₂ =>
    let e := min e₁ e₂
    roundScaled (m₁ * (2 ^ (e₁ - e).toNat : Nat) + m₂ * (2 ^ (e₂ - e).toNat : Nat)) e
  | finite _ _, inf b => inf b
  | inf a, finite _ _ => inf a
  | inf a, inf b => if a = b then inf a else nan
  | _, _ => nan

/-- Fused multiply-add `x * y + z` with a single rounding, which the Go
specification allows a compiler to use for `x*y + z`. -/
def fma : Float64 → Float64 → Float64 → Float64
  | finite m₁ e₁, finite m₂ e₂, finite m₃ e₃ =>
    let e := min (e₁ + e₂) e₃
    roundScaled
      (m₁ * m₂ * (2 ^ (e₁ + e₂ - e).toNat : Nat) + m₃ * (2 ^ (e₃ - e).toNat : Nat)) e
  | finite _ _, finite _ _, inf c => inf c
  | x, y, z => add (mul x y) z

/-- Go `==` on `float64`: numeric equality, false whenever a NaN is
involved. -/
def eq : Float64 → Float64 → Bool
  | finite m₁ e₁, finite m₂ e₂ =>
    let e := min e₁ e₂
    m₁ * (2 ^ (e₁ - e).toNat : Nat) == m₂ * (2 ^ (e₂ - e).toNat : Nat)
  | inf a, inf b => a == b
  | _, _ => false

/-- Neither an infinity nor a NaN. -/
def isFinite : Float64 → Bool
  | finite _ _ => true
  | _ => false

end Float64

/-! ## Data model of main.go -/

/-- A Go `error`, as far as the program observes one: the text `Error()`
returns. -/
abbrev GoError := String

/-- The decoded answer of the postal lookup service (`ViaCEPResponse`).  A
field that is absent from the JSON text keeps its zero value. -/
structure ViaCEPResponse where
  localidade : String
  erro : Bool
deriving DecidableEq, Repr

/-- The decoded answer of the weather service (`WeatherAPIResponse`); the
field is `Current.TempC`. -/
structure WeatherAPIResponse where
  currentTempC : Float64
deriving DecidableEq, Repr

/-- The success payload (`TemperatureResponse`). -/
structure TemperatureResponse where
  tempC : Float64
  tempF : Float64
  tempK : Float64
deriving DecidableEq, Repr

/-- The error payload (`ErrorResponse`). -/
structure ErrorResponse where
  message : String
deriving DecidableEq, Repr

/-- The values passed to `respondWithJSON` as `payload interface{}`. -/
inductive Payload where
  | temperature (t : TemperatureResponse)
  | error (e : ErrorResponse)
deriving DecidableEq, Repr

/-! ## Go `encoding/json`, encoding side -/

/-- A member value of an encoded JSON object. -/
inductive JsonValue where
  | str (s : String)
  | num (x : Float64)
deriving DecidableEq, Repr

/-- An encoded JSON object: its members in order, keyed by the `json` struct
tags. -/
abbrev JsonObject := List (String × JsonValue)

/-- The text of `UnsupportedValueError` for a `float64` that JSON cannot
represent. -/
def unsupportedValue : Float64 → GoError
  | .inf false => "json: unsupported value: +Inf"
  | .inf true => "json: unsupported value: -Inf"
  | _ => "json: unsupported value: NaN"

/-- Go `json.Marshal` on the two payload types.  A string field always
encodes; a `float64` field encodes unless it is an infinity or a NaN, and the
first such field makes the call fail. -/
def jsonMarshal : Payload → Except GoError JsonObject
  | .error e => .ok [("message", .str e.message)]
  | .temperature t =>
    if !t.tempC.isFinite then .error (unsupportedValue t.tempC)
    else if !t.tempF.isFinite then .error (unsupportedValue t.tempF)
    else if !t.tempK.isFinite then .error (unsupportedValue t.tempK)
    else .ok [("temp_C", .num t.tempC), ("temp_F", .num t.tempF), ("temp_K", .num t.tempK)]

/-! ## HTTP requests, responses and the outside world -/

/-- The part of `*http.Request` the handler reads: `r.Method` and
`r.URL.Path`. -/
structure Request where
  method : String
  path : String
deriving DecidableEq, Repr

/-- What was written as the response body: the encoding of a JSON object
produced by `json.Marshal`, or literal text. -/
inductive Body where
  | json (doc : JsonObject)
  | text (s : String)
deriving DecidableEq, Repr

/-- What a handler wrote to its `http.ResponseWriter`: the status code, the
header fields it set, and the body. -/
structure Response where
  status : Nat
  header : List (String × String)
  body : Body
deriving DecidableEq, Repr

deriving instance DecidableEq for Except

/-- The answer to an outbound `http.Get`: the status code and what
`io.ReadAll(resp.Body)` yields. -/
structure HttpResponse where
  statusCode : Nat
  readAll : Except GoError String
deriving DecidableEq

/-- Everything the program obtains from outside the process. -/
structure Env where
  /-- Result of `http.Get(url)`. -/
  httpGet : String → Except GoError HttpResponse
  /-- Result of `json.Unmarshal(body, &viaCEP)` on a zero `ViaCEPResponse`. -/
  unmarshalViaCEP : String → Except GoError ViaCEPResponse
  /-- Result of `json.Unmarshal(body, &weatherData)` on a zero
  `WeatherAPIResponse`. -/
  unmarshalWeather : String → Except GoError WeatherAPIResponse
  /-- Result of `os.Getenv(key)`. -/
  getenv : String → String
  /-- Result of `url.QueryEscape(s)`. -/
  queryEscape : String → String

/-- Go `http.Error(w, error, code)`: a plain-text response whose body is the
given text followed by a newline. -/
def httpError (error : String) (code : Nat) : Response :=
  { status := code
    header := [("Content-Type", "text/plain; charset=utf-8"),
               ("X-Content-Type-Options", "nosniff")]
    body := .text (error ++ "\n") }

/-! ## The functions of main.go -/

/-- The pattern `^\d{8}$` of `isValidCEPFormat`. -/
def cepPattern : Regex :=
  .cat .beginText (.cat (.count .digit 8) .endText)

/-- Go `isValidCEPFormat`: hyphens are removed, then the rest is matched
against `cepPattern`. -/
def isValidCEPFormat (cep : String) : Bool :=
  let cep := GoStrings.replaceAll cep "-" ""
  Regex.matchString cepPattern cep

/-- Go `celsiusToFahrenheit`: `celsius*1.8 + 32`, each operation rounded. -/
def celsiusToFahrenheit (celsius : Float64) : Float64 :=
  Float64.add (Float64.mul celsius (Float64.ofRat 18 10)) (Float64.ofRat 32 1)

/-- Go `celsiusToFahrenheit` as compiled for a target with fused
multiply-add, where `celsius*1.8 + 32` is rounded once. -/
def celsiusToFahrenheitFused (celsius : Float64) : Float64 :=
  Float64.fma celsius (Float64.ofRat 18 10) (Float64.ofRat 32 1)

/-- Go `celsiusToKelvin`: `celsius + 273`. -/
def celsiusToKelvin (celsius : Float64) : Float64 :=
  Float64.add celsius (Float64.ofRat 273 1)

/-- Go `respondWithJSON`: the payload is encoded; when that fails the status
is 500 with a literal body and no header set, otherwise the content type is
set and the given status and the encoding are written. -/
def respondWithJSON (code : Nat) (payload : Payload) : Response :=
  match jsonMarshal payload with
  | .error _ =>
    { status := 500
      header := []
      body := .text "\x7b\"message\": \"internal server error\"\x7d" }
  | .ok response =>
    { status := code
      header := [("Content-Type", "application/json")]
      body := .json response }

/-- Go `respondWithError`. -/
def respondWithError (code : Nat) (message : String) : Response :=
  respondWithJSON code (.error { message := message })

/-- Go `getLocationByCEP`, with the URLs it requested. -/
def getLocationByCEP (env : Env) (cep : String) : Except GoError String × List String :=
  let cep := GoStrings.replaceAll cep "-" ""
  let url := "https://viacep.com.br/ws/" ++ cep ++ "/json/"
  (match env.httpGet url with
    | .error err => .error err
    | .ok resp =>
      match resp.readAll with
      | .error err => .error err
      | .ok body =>
        match env.unmarshalViaCEP body with
        | .error err => .error err
        | .ok viaCEP =>
          if viaCEP.erro || viaCEP.localidade == "" then .error "zipcode not found"
          else .ok viaCEP.localidade,
   [url])

/-- Go `getTemperature`, with the URLs it requested. -/
def getTemperature (env : Env) (location : String) : Except GoError Float64 × List String :=
  let apiKey := env.getenv "WEATHER_API_KEY"
  let apiKey := if apiKey == "" then "demo" else apiKey
  let encodedLocation := env.queryEscape location
  let apiURL :=
    "http://api.weatherapi.com/v1/current.json?key=" ++ apiKey ++ "&q=" ++ encodedLocation
  (match env.httpGet apiURL with
    | .error err => .error err
    | .ok resp =>
      if resp.statusCode != 200 then
        .error ("weather API returned status " ++ toString resp.statusCode)
      else
        match resp.readAll with
        | .error err => .error err
        | .ok body =>
          match env.unmarshalWeather body with
          | .error err => .error err
          | .ok weatherData => .ok weatherData.currentTempC,
   [apiURL])

/-- Go `handleWeather`: the response written, with the URLs requested while
handling the request. -/
def handleWeather (env : Env) (r : Request) : Response × List String :=
  if r.method != "GET" then
    (httpError "Method not allowed" 405, [])
  else
    let path := GoStrings.trimPrefix r.path "/weather/"
    let cep := GoStrings.trimSpace path
    if !isValidCEPFormat cep then
      (respondWithError 422 "invalid zipcode", [])
    else
      match getLocationByCEP env cep with
      | (.error err, reqs) =>
        if err == "zipcode not found" then
          (respondWithError 404 "can not find zipcode", reqs)
        else
          (respondWithError 500 "internal server error", reqs)
      | (.ok location, reqs) =>
        match getTemperature env location with
        | (.error _, reqs₂) =>
          (respondWithError 500 "error fetching weather data", reqs ++ reqs₂)
        | (.ok tempC, reqs₂) =>
          let response : TemperatureResponse :=
            { tempC := tempC
              tempF := celsiusToFahrenheit tempC
              tempK := celsiusToKelvin tempC }
          (respondWithJSON 200 (.temperature response), reqs ++ reqs₂)

/-! ## Reading a response body back

The shape `{"message": string}` of an error body, as a client reading the
body observes it. -/

namespace JsonText

/-- JSON insignificant white space. -/
def isWs (c : Char) : Bool :=
  c = ' ' || c = '\t' || c = '\n' || c = '\r'

/-- Drop leading white space. -/
def skipWs (s : List Char) : List Char :=
  s.dropWhile isWs

/-- Consume one expected character. -/
def expect (c : Char) : List Char → Option (List Char)
  | [] => none
  | d :: rest => if d = c then some rest else none

/-- The character a two-character escape sequence stands for (`\u` escapes
are not recognised). -/
def unescape (c : Char) : Option Char :=
  if c = '"' then some '"'
  else if c = '\\' then some '\\'
  else if c = '/' then some '/'
  else if c = 'b' then some (Char.ofNat 8)
  else if c = 'f' then some (Char.ofNat 12)
  else if c = 'n' then some '\n'
  else if c = 'r' then some '\r'
  else if c = 't' then some '\t'
  else none

/-- Read a string literal after its opening quote: the decoded content and
the text after the closing quote.  The flag tells that the previous character
was a backslash. -/
def stringTail : Bool → List Char → Option (List Char × List Char)
  | _, [] => none
  | true, c :: rest =>
    match unescape c, stringTail false rest with
    | some d, some (content, after) => some (d :: content, after)
    | _, _ => none
  | false, c :: rest =>
    if c = '"' then some ([], rest)
    else if c = '\\' then stringTail true rest
    else if c.toNat < 32 then none
    else
      match stringTail false rest with
      | some (content, after) => some (c :: content, after)
      | none => none

/-- Read a string literal. -/
def stringLit (s : List Char) : Option (List Char × List Char) :=
  match expect '"' s with
  | some rest => stringTail false rest
  | none => none

/-- Read a JSON text that is an object with the single member `message`
holding a string; the result is that string. -/
def messageObject (s : String) : Option String := do
  let r ← expect (Char.ofNat 0x7b) (skipWs s.data)
  let (key, r) ← stringLit (skipWs r)
  if key ≠ "message".data then none
  let r ← expect ':' (skipWs r)
  let (value, r) ← stringLit (skipWs r)
  let r ← expect (Char.ofNat 0x7d) (skipWs r)
  if (skipWs r).isEmpty then some ⟨value⟩ else none

end JsonText

/-- The `message` of a body of the shape `{"message": string}`, and `none`
for a body of any other shape. -/
def Body.message? : Body → Option String
  | .json [(key, .str m)] => if key = "message" then some m else none
  | .json _ => none
  | .text s => JsonText.messageObject s

/-! ## Sample outside worlds -/

/-- The URL of the lookup request for the postal code 01310100. -/
def sampleLookupURL : String := "https://viacep.com.br/ws/01310100/json/"

/-- The URL of the weather request for the city of that postal code. -/
def sampleWeatherURL : String :=
  "http://api.weatherapi.com/v1/current.json?key=demo&q=S%C3%A3o+Paulo"

/-- An outside world in which the lookup request for 01310100 is answered by
`lookupGet` and its body decodes as `lookup`, the weather request for São
Paulo is answered by `weatherGet` and its body decodes as `weather`, no
API key is configured, and every other request fails to connect. -/
def sampleEnv (lookupGet : Except GoError HttpResponse) (lookup : Except GoError ViaCEPResponse)
    (weatherGet : Except GoError HttpResponse) (weather : Except GoError WeatherAPIResponse) :
    Env :=
  { httpGet := fun url =>
      if url = sampleLookupURL then lookupGet
      else if url = sampleWeatherURL then weatherGet
      else .error ("Get \"" ++ url ++ "\": dial tcp: connection refused")
    unmarshalViaCEP := fun _ => lookup
    unmarshalWeather := fun _ => weather
    getenv := fun _ => ""
    queryEscape := fun s => if s = "São Paulo" then "S%C3%A3o+Paulo" else s }

/-- A lookup answer that reports the city of São Paulo. -/
def saoPaulo : ViaCEPResponse :=
  { localidade := "São Paulo", erro := false }

/-- An answer with status 200 whose body can be read. -/
def okResponse : HttpResponse :=
  { statusCode := 200, readAll := .ok "body" }

/-- An outside world without network: every request fails to connect. -/
def offlineEnv : Env :=
  sampleEnv (.error "Get \"https://viacep.com.br/ws/01310100/json/\": dial tcp: no route to host")
    (.error "unexpected end of JSON input")
    (.error "Get \"http://api.weatherapi.com/\": dial tcp: no route to host")
    (.error "unexpected end of JSON input")

/-- An outside world in which São Paulo is found and the weather service
reports the given Celsius reading. -/
def weatherEnv (tempC : Float64) : Env :=
  sampleEnv (.ok okResponse) (.ok saoPaulo) (.ok okResponse) (.ok { currentTempC := tempC })

/-- An outside world in which the lookup service reports that the postal code
does not exist. -/
def notFoundEnv : Env :=
  sampleEnv (.ok okResponse) (.ok { localidade := "", erro := true })
    (.ok okResponse) (.ok { currentTempC := .finite 57 (-1) })

/-- An outside world in which São Paulo is found and the weather service
answers with status 503. -/
def weatherDownEnv : Env :=
  sampleEnv (.ok okResponse) (.ok saoPaulo)
    (.ok { statusCode := 503, readAll := .ok "body" }) (.ok { currentTempC := .finite 57 (-1) })

/-! ## Lemmas on the validator -/

/-- The runes the class `\d` accepts are the ten ASCII digits. -/
theorem digit_iff (c : Char) :
    ('0' ≤ c ∧ c ≤ '9') ↔ c ∈ ['0', '1', '2', '3', '4', '5', '6', '7', '8', '9'] := by
  constructor
  · rintro ⟨h0, h9⟩
    have h0' : 48 ≤ c.toNat := h0
    have h9' : c.toNat ≤ 57 := h9
    have hc : Char.ofNat c.toNat = c := Char.ofNat_toNat c
    rw [← hc]
    interval_cases c.toNat <;> decide
  · intro h
    simp only [List.mem_cons, List.mem_singleton, List.not_mem_nil, or_false] at h
    rcases h with rfl | rfl | rfl | rfl | rfl | rfl | rfl | rfl | rfl | rfl <;> decide

/-- Replacing the one-rune string `-` by the empty string filters the hyphens
out. -/
theorem replaceAllAux_hyphen (s : List Char) :
    GoStrings.replaceAllAux ['-'] [] 0 s = s.filter (fun c => c ≠ '-') := by
  induction s with
  | nil => rfl
  | cons c rest ih =>
    by_cases hc : c = '-'
    · subst hc
      simp [GoStrings.replaceAllAux, ih]
    · have hc' : ¬ '-' = c := fun h => hc h.symm
      simp [GoStrings.replaceAllAux, ih, hc, hc', List.isPrefixOf]

theorem replaceAll_hyphen (s : String) :
    (GoStrings.replaceAll s "-" "").data = s.data.filter (fun c => c ≠ '-') := by
  show (GoStrings.replaceAllAux ['-'] [] 0 s.data) = _
  exact replaceAllAux_hyphen s.data

theorem run_digit_cons (a : Bool) (c : Char) (rest : List Char) :
    Regex.run .digit (a, c :: rest) =
      if '0' ≤ c ∧ c ≤ '9' then [(false, rest)] else [] := rfl

theorem iterate_succ (step : Regex.Pos → List Regex.Pos) (n : Nat) (p : Regex.Pos) :
    Regex.iterate step (n + 1) p = (step p).flatMap (Regex.iterate step n) := rfl

/-- Matching `\d{n}`: it succeeds exactly when the text starts with `n`
digits, and then ends right after them. -/
theorem iterate_digit (n : Nat) (a : Bool) (s : List Char) :
    Regex.iterate (Regex.run .digit) n (a, s) =
      if n ≤ s.length ∧ ∀ c ∈ s.take n, '0' ≤ c ∧ c ≤ '9' then
        [(if n = 0 then a else false, s.drop n)]
      else [] := by
  induction n generalizing a s with
  | zero => simp [Regex.iterate]
  | succ n ih =>
    rw [iterate_succ]
    cases s with
    | nil =>
      have : Regex.run .digit (a, []) = [] := rfl
      rw [this]
      simp
    | cons c rest =>
      rw [run_digit_cons]
      by_cases hc : '0' ≤ c ∧ c ≤ '9'
      · rw [if_pos hc]
        simp only [List.flatMap_cons, List.flatMap_nil, List.append_nil]
        rw [ih]
        by_cases hrest : n ≤ rest.length ∧ ∀ c ∈ rest.take n, '0' ≤ c ∧ c ≤ '9'
        · have : n + 1 ≤ (c :: rest).length ∧
              ∀ d ∈ (c :: rest).take (n + 1), '0' ≤ d ∧ d ≤ '9' := by
            refine ⟨by simpa using hrest.1, ?_⟩
            intro d hd
            simp only [List.take_succ_cons, List.mem_cons] at hd
            rcases hd with rfl | hd
            · exact hc
            · exact hrest.2 d hd
          rw [if_pos hrest, if_pos this]
          by_cases hn : n = 0 <;> simp [hn]
        · have : ¬ (n + 1 ≤ (c :: rest).length ∧
              ∀ d ∈ (c :: rest).take (n + 1), '0' ≤ d ∧ d ≤ '9') := by
            rintro ⟨h1, h2⟩
            apply hrest
            refine ⟨by simpa using h1, ?_⟩
            intro d hd
            exact h2 d (by simp [List.take_succ_cons, hd])
          rw [if_neg hrest, if_neg this]
      · have : ¬ (n + 1 ≤ (c :: rest).length ∧
            ∀ d ∈ (c :: rest).take (n + 1), '0' ≤ d ∧ d ≤ '9') := by
          rintro ⟨_, h2⟩
          exact hc (h2 c (by simp [List.take_succ_cons]))
        rw [if_neg this, if_neg hc]
        rfl

/-- The pattern cannot match at a position that is not the beginning. -/
theorem run_cepPattern_later (s : List Char) : Regex.run cepPattern (false, s) = [] := rfl

theorem search_cepPattern_later (s : List Char) : Regex.search cepPattern false s = false := by
  induction s with
  | nil => simp [Regex.search, run_cepPattern_later]
  | cons c rest ih => simp [Regex.search, run_cepPattern_later, ih]

theorem run_cepPattern_unfold (s : List Char) :
    Regex.run cepPattern (true, s) =
      (Regex.iterate (Regex.run .digit) 8 (true, s)).flatMap (Regex.run .endText) := by
  show ([(true, s)] : List Regex.Pos).flatMap
    (fun p => (Regex.iterate (Regex.run .digit) 8 p).flatMap (Regex.run .endText)) = _
  simp only [List.flatMap_cons, List.flatMap_nil, List.append_nil]

theorem run_endText (a : Bool) (s : List Char) :
    Regex.run .endText (a, s) = if s.isEmpty then [(a, s)] else [] := rfl

/-- The pattern matches at the beginning exactly when the text is eight
digits. -/
theorem run_cepPattern_start (s : List Char) :
    Regex.run cepPattern (true, s) ≠ [] ↔ s.length = 8 ∧ ∀ c ∈ s, '0' ≤ c ∧ c ≤ '9' := by
  rw [run_cepPattern_unfold, iterate_digit]
  by_cases h : 8 ≤ s.length ∧ ∀ c ∈ s.take 8, '0' ≤ c ∧ c ≤ '9'
  · rw [if_pos h]
    simp only [List.flatMap_cons, List.flatMap_nil, List.append_nil, run_endText]
    by_cases hd : (s.drop 8).isEmpty = true
    · have hlen : s.length = 8 := by
        have : s.length ≤ 8 := by simpa [List.isEmpty_iff, List.drop_eq_nil_iff] using hd
        omega
      have htake : s.take 8 = s := List.take_of_length_le (by omega)
      rw [if_pos hd]
      refine ⟨fun _ => ⟨hlen, by simpa [htake] using h.2⟩, fun _ => by simp⟩
    · rw [if_neg hd]
      refine ⟨fun hne => absurd rfl hne, fun hs => ?_⟩
      exfalso
      apply hd
      simp [List.isEmpty_iff, List.drop_eq_nil_iff, hs.1]
  · rw [if_neg h]
    refine ⟨fun hne => absurd rfl hne, fun hs => ?_⟩
    exfalso
    apply h
    refine ⟨by omega, ?_⟩
    intro c hc
    exact hs.2 c (List.mem_of_mem_take hc)

/-- The validator's regular expression accepts exactly the texts of eight
digits. -/
theorem matchString_cepPattern (s : String) :
    Regex.matchString cepPattern s = true ↔
      s.data.length = 8 ∧ ∀ c ∈ s.data, '0' ≤ c ∧ c ≤ '9' := by
  rw [← run_cepPattern_start]
  unfold Regex.matchString
  cases h : s.data with
  | nil => simp [Regex.search, List.isEmpty_iff]
  | cons c rest => simp [Regex.search, search_cepPattern_later, List.isEmpty_iff]

/-- What `isValidCEPFormat` decides, in terms of the text without its
hyphens. -/
theorem isValidCEPFormat_eq_true_iff (s : String) :
    isValidCEPFormat s = true ↔
      (s.data.filter (fun c => c ≠ '-')).length = 8 ∧
        ∀ c ∈ s.data.filter (fun c => c ≠ '-'),
          c ∈ ['0', '1', '2', '3', '4', '5', '6', '7', '8', '9'] := by
  unfold isValidCEPFormat
  simp only [matchString_cepPattern, replaceAll_hyphen, digit_iff]


/-! ## The validator -/

/-- C1: `isValidCEPFormat` accepts a string if and only if the string without
its hyphens is exactly eight characters, each one of the ASCII digits 0-9.
The strings 01310100 and 01310-100 are accepted; 0131010, 013101000,
0131010a, 01310-10@ and the empty string are rejected. -/
theorem isValidCEPFormat_spec :
    (∀ s : String,
      isValidCEPFormat s = true ↔
        (s.data.filter (fun c => c ≠ '-')).length = 8 ∧
          ∀ c ∈ s.data.filter (fun c => c ≠ '-'),
            c ∈ ['0', '1', '2', '3', '4', '5', '6', '7', '8', '9']) ∧
    isValidCEPFormat "01310100" = true ∧
    isValidCEPFormat "01310-100" = true ∧
    isValidCEPFormat "0131010" = false ∧
    isValidCEPFormat "013101000" = false ∧
    isValidCEPFormat "0131010a" = false ∧
    isValidCEPFormat "01310-10@" = false ∧
    isValidCEPFormat "" = false :=
  ⟨isValidCEPFormat_eq_true_iff, by decide, by decide, by decide, by decide, by decide,
    by decide, by decide⟩

/-! ## The handler, step by step -/

/-- A request with another method than GET is answered by `http.Error`, and
nothing else happens. -/
theorem handleWeather_other_method (env : Env) (r : Request) (hm : r.method ≠ "GET") :
    handleWeather env r = (httpError "Method not allowed" 405, []) := by
  simp [handleWeather, hm]

/-- A GET request with a malformed postal code. -/
theorem handleWeather_malformed (env : Env) (r : Request) (hm : r.method = "GET")
    (hv : isValidCEPFormat
      (GoStrings.trimSpace (GoStrings.trimPrefix r.path "/weather/")) = false) :
    handleWeather env r = (respondWithError 422 "invalid zipcode", []) := by
  simp [handleWeather, hm, hv]

/-- A GET request with a well-formed postal code: the handler continues with
the lookup. -/
theorem handleWeather_wellformed (env : Env) (r : Request) (hm : r.method = "GET")
    (hv : isValidCEPFormat
      (GoStrings.trimSpace (GoStrings.trimPrefix r.path "/weather/")) = true) :
    handleWeather env r =
      match getLocationByCEP env (GoStrings.trimSpace (GoStrings.trimPrefix r.path "/weather/")) with
      | (.error err, reqs) =>
        if err = "zipcode not found" then
          (respondWithError 404 "can not find zipcode", reqs)
        else
          (respondWithError 500 "internal server error", reqs)
      | (.ok location, reqs) =>
        match getTemperature env location with
        | (.error _, reqs₂) =>
          (respondWithError 500 "error fetching weather data", reqs ++ reqs₂)
        | (.ok tempC, reqs₂) =>
          (respondWithJSON 200 (.temperature
            { tempC := tempC
              tempF := celsiusToFahrenheit tempC
              tempK := celsiusToKelvin tempC }), reqs ++ reqs₂) := by
  simp only [handleWeather, hm, hv, bne_self_eq_false, Bool.false_eq_true, if_false,
    Bool.not_true, beq_iff_eq]

/-- An error payload always encodes. -/
theorem respondWithError_eq (code : Nat) (message : String) :
    respondWithError code message =
      { status := code
        header := [("Content-Type", "application/json")]
        body := .json [("message", .str message)] } := rfl

/-- The requests made by `getLocationByCEP`. -/
theorem getLocationByCEP_requests (env : Env) (cep : String) :
    (getLocationByCEP env cep).2 =
      ["https://viacep.com.br/ws/" ++ GoStrings.replaceAll cep "-" "" ++ "/json/"] := rfl

/-- The requests made by `getTemperature`. -/
theorem getTemperature_requests (env : Env) (location : String) :
    (getTemperature env location).2 =
      ["http://api.weatherapi.com/v1/current.json?key=" ++
        (if env.getenv "WEATHER_API_KEY" = "" then "demo" else env.getenv "WEATHER_API_KEY") ++
        "&q=" ++ env.queryEscape location] := by
  simp [getTemperature]

/-! ## Format validation and method check -/

/-- C2: a GET request whose path, after stripping the `/weather/` prefix and
trimming white space, fails `isValidCEPFormat` is answered with status 422 and
a JSON body whose message is "invalid zipcode", and no outbound request (neither
the postal lookup nor the weather fetch) is made. -/
theorem handleWeather_invalid_zipcode (env : Env) (r : Request) (hm : r.method = "GET")
    (hv : isValidCEPFormat
      (GoStrings.trimSpace (GoStrings.trimPrefix r.path "/weather/")) = false) :
    (handleWeather env r).1.status = 422 ∧
    (handleWeather env r).1.body = .json [("message", .str "invalid zipcode")] ∧
    (handleWeather env r).2 = [] := by
  rw [handleWeather_malformed env r hm hv, respondWithError_eq]
  exact ⟨rfl, rfl, rfl⟩

/-- The request `GET /weather/123`, in a world where both services would
answer, is such a request. -/
theorem handleWeather_invalid_zipcode_witness :
    isValidCEPFormat
      (GoStrings.trimSpace (GoStrings.trimPrefix "/weather/123" "/weather/")) = false ∧
    (handleWeather (weatherEnv (.finite 57 (-1))) ⟨"GET", "/weather/123"⟩).1.status = 422 ∧
    (handleWeather (weatherEnv (.finite 57 (-1))) ⟨"GET", "/weather/123"⟩).1.body =
      .json [("message", .str "invalid zipcode")] ∧
    (handleWeather (weatherEnv (.finite 57 (-1))) ⟨"GET", "/weather/123"⟩).2 = [] :=
  ⟨by decide,
    handleWeather_invalid_zipcode (weatherEnv (.finite 57 (-1))) ⟨"GET", "/weather/123"⟩ rfl
      (by decide)⟩

/-- C3: a request whose method is not GET is answered with status 405 whatever
its path; no outbound request is made, and the response does not depend on the
path, on the validity of the postal code or on the outside world. -/
theorem handleWeather_method_not_allowed (env : Env) (r : Request) (hm : r.method ≠ "GET") :
    (handleWeather env r).1.status = 405 ∧
    (handleWeather env r).2 = [] ∧
    ∀ (env₂ : Env) (r₂ : Request), r₂.method ≠ "GET" →
      handleWeather env₂ r₂ = handleWeather env r := by
  rw [handleWeather_other_method env r hm]
  refine ⟨rfl, rfl, ?_⟩
  intro env₂ r₂ hm₂
  rw [handleWeather_other_method env₂ r₂ hm₂]

/-- The request `POST /weather/01310100`, with a valid postal code and both
services answering, and the request `DELETE /weather/abc` without network. -/
theorem handleWeather_method_not_allowed_witness :
    (handleWeather (weatherEnv (.finite 57 (-1))) ⟨"POST", "/weather/01310100"⟩).1.status = 405 ∧
    (handleWeather (weatherEnv (.finite 57 (-1))) ⟨"POST", "/weather/01310100"⟩).2 = [] ∧
    handleWeather offlineEnv ⟨"DELETE", "/weather/abc"⟩ =
      handleWeather (weatherEnv (.finite 57 (-1))) ⟨"POST", "/weather/01310100"⟩ :=
  have h := handleWeather_method_not_allowed (weatherEnv (.finite 57 (-1)))
    ⟨"POST", "/weather/01310100"⟩ (by decide)
  ⟨h.1, h.2.1, h.2.2 offlineEnv ⟨"DELETE", "/weather/abc"⟩ (by decide)⟩

/-! ## Upstream failures -/

/-- C4: for a GET request with a well-formed postal code, with the results of
the two upstream calls given: a lookup that fails as not found (the error
"zipcode not found") gives 404 "can not find zipcode"; a lookup that fails
with any other error gives 500 "internal server error"; a lookup that succeeds
followed by a temperature fetch that fails with any error gives 500 "error
fetching weather data". -/
theorem handleWeather_upstream_failure (env : Env) (r : Request) (hm : r.method = "GET")
    (hv : isValidCEPFormat
      (GoStrings.trimSpace (GoStrings.trimPrefix r.path "/weather/")) = true) :
    (∀ e,
      (getLocationByCEP env
        (GoStrings.trimSpace (GoStrings.trimPrefix r.path "/weather/"))).1 = .error e →
      e = "zipcode not found" →
        (handleWeather env r).1.status = 404 ∧
        (handleWeather env r).1.body = .json [("message", .str "can not find zipcode")]) ∧
    (∀ e,
      (getLocationByCEP env
        (GoStrings.trimSpace (GoStrings.trimPrefix r.path "/weather/"))).1 = .error e →
      e ≠ "zipcode not found" →
        (handleWeather env r).1.status = 500 ∧
        (handleWeather env r).1.body = .json [("message", .str "internal server error")]) ∧
    (∀ location e,
      (getLocationByCEP env
        (GoStrings.trimSpace (GoStrings.trimPrefix r.path "/weather/"))).1 = .ok location →
      (getTemperature env location).1 = .error e →
        (handleWeather env r).1.status = 500 ∧
        (handleWeather env r).1.body =
          .json [("message", .str "error fetching weather data")]) := by
  rw [handleWeather_wellformed env r hm hv]
  generalize getLocationByCEP env
    (GoStrings.trimSpace (GoStrings.trimPrefix r.path "/weather/")) = lookup
  obtain ⟨res, reqs⟩ := lookup
  refine ⟨?_, ?_, ?_⟩
  · intro e he hnf
    simp only at he
    subst he
    simp [hnf, respondWithError_eq]
  · intro e he hnf
    simp only at he
    subst he
    simp [hnf, respondWithError_eq]
  · intro location e he ht
    simp only at he
    subst he
    rcases hf : getTemperature env location with ⟨res₂, reqs₂⟩
    rw [hf] at ht
    simp only at ht
    subst ht
    simp [hf, respondWithError_eq]

/-- Three requests for `GET /weather/01310-100`: the lookup service reports
that the code does not exist; there is no network; the weather service
answers with status 503. -/
theorem handleWeather_upstream_failure_witness :
    ((handleWeather notFoundEnv ⟨"GET", "/weather/01310-100"⟩).1.status = 404 ∧
      (handleWeather notFoundEnv ⟨"GET", "/weather/01310-100"⟩).1.body =
        .json [("message", .str "can not find zipcode")]) ∧
    ((handleWeather offlineEnv ⟨"GET", "/weather/01310-100"⟩).1.status = 500 ∧
      (handleWeather offlineEnv ⟨"GET", "/weather/01310-100"⟩).1.body =
        .json [("message", .str "internal server error")]) ∧
    ((handleWeather weatherDownEnv ⟨"GET", "/weather/01310-100"⟩).1.status = 500 ∧
      (handleWeather weatherDownEnv ⟨"GET", "/weather/01310-100"⟩).1.body =
        .json [("message", .str "error fetching weather data")]) :=
  ⟨(handleWeather_upstream_failure notFoundEnv ⟨"GET", "/weather/01310-100"⟩ rfl
      (by decide)).1 "zipcode not found" (by decide) rfl,
    (handleWeather_upstream_failure offlineEnv ⟨"GET", "/weather/01310-100"⟩ rfl
      (by decide)).2.1
      "Get \"https://viacep.com.br/ws/01310100/json/\": dial tcp: no route to host"
      (by decide) (by decide),
    (handleWeather_upstream_failure weatherDownEnv ⟨"GET", "/weather/01310-100"⟩ rfl
      (by decide)).2.2 "São Paulo" "weather API returned status 503"
      (by decide) (by decide)⟩

/-! ## The successful response and the shape of error bodies -/

/-- Encoding a temperature payload whose three fields are finite. -/
theorem respondWithJSON_temperature_finite (code : Nat) (t : TemperatureResponse)
    (hc : t.tempC.isFinite = true) (hf : t.tempF.isFinite = true)
    (hk : t.tempK.isFinite = true) :
    respondWithJSON code (.temperature t) =
      { status := code
        header := [("Content-Type", "application/json")]
        body := .json
          [("temp_C", .num t.tempC), ("temp_F", .num t.tempF), ("temp_K", .num t.tempK)] } := by
  simp [respondWithJSON, jsonMarshal, hc, hf, hk]

/-- Encoding a temperature payload with a field that is not finite fails, and
the fallback response is written. -/
theorem respondWithJSON_temperature_fallback (code : Nat) (t : TemperatureResponse)
    (h : ¬ (t.tempC.isFinite = true ∧ t.tempF.isFinite = true ∧ t.tempK.isFinite = true)) :
    respondWithJSON code (.temperature t) =
      { status := 500
        header := []
        body := .text "\x7b\"message\": \"internal server error\"\x7d" } := by
  unfold respondWithJSON jsonMarshal
  by_cases hc : t.tempC.isFinite = true
  · by_cases hf : t.tempF.isFinite = true
    · by_cases hk : t.tempK.isFinite = true
      · exact absurd ⟨hc, hf, hk⟩ h
      · simp [hc, hf, hk]
    · simp [hc, hf]
  · simp [hc]

/-- C5 (amended): for a GET request with a well-formed postal code for which
the lookup returns a location and the weather fetch returns a Celsius reading
`c`, provided `c`, `c*1.8+32` and `c+273` are finite `float64` values, the
response has status 200, the content type `application/json`, and a body
whose `temp_C` is `c`, whose `temp_F` is `c*1.8+32` and whose `temp_K` is
`c+273`. -/
theorem handleWeather_success (env : Env) (r : Request) (location : String) (c : Float64)
    (hm : r.method = "GET")
    (hv : isValidCEPFormat
      (GoStrings.trimSpace (GoStrings.trimPrefix r.path "/weather/")) = true)
    (hl : (getLocationByCEP env
      (GoStrings.trimSpace (GoStrings.trimPrefix r.path "/weather/"))).1 = .ok location)
    (ht : (getTemperature env location).1 = .ok c)
    (hfin : c.isFinite = true ∧
      (Float64.add (Float64.mul c (Float64.ofRat 18 10)) (Float64.ofRat 32 1)).isFinite = true ∧
      (Float64.add c (Float64.ofRat 273 1)).isFinite = true) :
    (handleWeather env r).1 =
      { status := 200
        header := [("Content-Type", "application/json")]
        body := .json
          [("temp_C", .num c),
           ("temp_F", .num (Float64.add (Float64.mul c (Float64.ofRat 18 10)) (Float64.ofRat 32 1))),
           ("temp_K", .num (Float64.add c (Float64.ofRat 273 1)))] } := by
  rw [handleWeather_wellformed env r hm hv]
  rcases hlk : getLocationByCEP env
    (GoStrings.trimSpace (GoStrings.trimPrefix r.path "/weather/")) with ⟨res, reqs⟩
  rw [hlk] at hl
  simp only at hl
  subst hl
  rcases hf : getTemperature env location with ⟨res₂, reqs₂⟩
  rw [hf] at ht
  simp only at ht
  subst ht
  simp only [hf]
  exact respondWithJSON_temperature_finite 200
    ⟨c, celsiusToFahrenheit c, celsiusToKelvin c⟩ hfin.1 hfin.2.1 hfin.2.2

/-- The request `GET /weather/01310-100` when São Paulo is found and the
weather service reports 28.5 degrees. -/
theorem handleWeather_success_witness :
    (handleWeather (weatherEnv (.finite 57 (-1))) ⟨"GET", "/weather/01310-100"⟩).1 =
      { status := 200
        header := [("Content-Type", "application/json")]
        body := .json
          [("temp_C", .num (.finite 57 (-1))),
           ("temp_F", .num (Float64.add (Float64.mul (.finite 57 (-1)) (Float64.ofRat 18 10))
              (Float64.ofRat 32 1))),
           ("temp_K", .num (Float64.add (.finite 57 (-1)) (Float64.ofRat 273 1)))] } :=
  handleWeather_success (weatherEnv (.finite 57 (-1))) ⟨"GET", "/weather/01310-100"⟩
    "São Paulo" (.finite 57 (-1)) rfl (by decide) (by decide) (by decide)
    ⟨by decide,
     by decide!,
     by decide!⟩

/-- C5 (as stated) fails: when the weather service reports 1e308 degrees, the
Fahrenheit value overflows to +Inf, encoding the payload fails, and the
response has status 500, no content type and the fallback body. -/
theorem handleWeather_success_counterexample :
    Float64.ofRat (10 ^ 308 : Nat) 1 = .finite 5010420900022432 971 ∧
    isValidCEPFormat
      (GoStrings.trimSpace (GoStrings.trimPrefix "/weather/01310-100" "/weather/")) = true ∧
    (getLocationByCEP (weatherEnv (.finite 5010420900022432 971))
      (GoStrings.trimSpace (GoStrings.trimPrefix "/weather/01310-100" "/weather/"))).1 =
        .ok "São Paulo" ∧
    (getTemperature (weatherEnv (.finite 5010420900022432 971)) "São Paulo").1 =
      .ok (.finite 5010420900022432 971) ∧
    celsiusToFahrenheit (.finite 5010420900022432 971) = .inf false ∧
    (handleWeather (weatherEnv (.finite 5010420900022432 971))
      ⟨"GET", "/weather/01310-100"⟩).1 =
        { status := 500
          header := []
          body := .text "\x7b\"message\": \"internal server error\"\x7d" } := by
  refine ⟨?_, ?_, ?_, ?_, ?_, ?_⟩
  · decide!
  · decide
  · decide
  · decide
  · decide!
  · decide!

/-- The body written by `respondWithError` has the shape
`{"message": string}`. -/
theorem respondWithError_message (code : Nat) (message : String) :
    (respondWithError code message).body.message? = some message := by
  simp [respondWithError_eq, Body.message?]

/-- A response written by `respondWithError` with another status than 405
has the error shape. -/
theorem respondWithError_shape (code : Nat) (message : String) (hc : code ≠ 405) :
    ((respondWithError code message).status ≠ 405 →
      ∃ m, (respondWithError code message).body.message? = some m) ∧
    ((respondWithError code message).status = 405 →
      (respondWithError code message).body = .text "Method not allowed\n") :=
  ⟨fun _ => ⟨_, respondWithError_message _ _⟩, fun h => absurd h hc⟩

/-- C6 (amended): every non-2xx response of the weather endpoint other than
the 405 (that is the 422, the 404, both 500 cases and the fallback written
when the payload cannot be encoded) has a JSON body of the single-field shape
`{"message": string}`; the body of the 405 response is the plain text
"Method not allowed" followed by a newline. -/
theorem handleWeather_error_body (env : Env) (r : Request)
    (h2xx : ¬ (200 ≤ (handleWeather env r).1.status ∧ (handleWeather env r).1.status < 300)) :
    ((handleWeather env r).1.status ≠ 405 →
      ∃ m, (handleWeather env r).1.body.message? = some m) ∧
    ((handleWeather env r).1.status = 405 →
      (handleWeather env r).1.body = .text "Method not allowed\n") := by
  by_cases hm : r.method = "GET"
  · cases hv : isValidCEPFormat
      (GoStrings.trimSpace (GoStrings.trimPrefix r.path "/weather/")) with
    | false =>
      rw [handleWeather_malformed env r hm hv]
      exact respondWithError_shape _ _ (by decide)
    | true =>
      rw [handleWeather_wellformed env r hm hv] at h2xx ⊢
      rcases hlk : getLocationByCEP env
        (GoStrings.trimSpace (GoStrings.trimPrefix r.path "/weather/")) with ⟨res, reqs⟩
      rw [hlk] at h2xx
      cases res with
      | error err =>
        by_cases hnf : err = "zipcode not found"
        · simp only [hnf, if_true]
          exact respondWithError_shape _ _ (by decide)
        · simp only [hnf, if_false]
          exact respondWithError_shape _ _ (by decide)
      | ok location =>
        simp only [] at h2xx ⊢
        rcases hf : getTemperature env location with ⟨res₂, reqs₂⟩
        rw [hf] at h2xx
        cases res₂ with
        | error err =>
          simp only []
          exact respondWithError_shape _ _ (by decide)
        | ok c =>
          simp only [] at h2xx ⊢
          by_cases hfin : c.isFinite = true ∧ (celsiusToFahrenheit c).isFinite = true ∧
              (celsiusToKelvin c).isFinite = true
          · exfalso
            apply h2xx
            rw [respondWithJSON_temperature_finite 200
              ⟨c, celsiusToFahrenheit c, celsiusToKelvin c⟩ hfin.1 hfin.2.1 hfin.2.2]
            show 200 ≤ 200 ∧ 200 < 300
            omega
          · rw [respondWithJSON_temperature_fallback 200
              ⟨c, celsiusToFahrenheit c, celsiusToKelvin c⟩ hfin]
            exact ⟨fun _ => ⟨"internal server error", by decide⟩, fun h => absurd h (by decide)⟩
  · rw [handleWeather_other_method env r hm]
    exact ⟨fun h => absurd rfl h, fun _ => rfl⟩

/-- The request `GET /weather/123` (status 422), the request
`GET /weather/01310-100` answered when the weather service reports 1e308
degrees (status 500, fallback body), and the request `PUT /weather/123`
(status 405). -/
theorem handleWeather_error_body_witness :
    (∃ m, (handleWeather offlineEnv ⟨"GET", "/weather/123"⟩).1.body.message? = some m) ∧
    (∃ m, (handleWeather (weatherEnv (.finite 5010420900022432 971))
      ⟨"GET", "/weather/01310-100"⟩).1.body.message? = some m) ∧
    (handleWeather offlineEnv ⟨"PUT", "/weather/123"⟩).1.body = .text "Method not allowed\n" :=
  ⟨(handleWeather_error_body offlineEnv ⟨"GET", "/weather/123"⟩ (by decide)).1 (by decide),
    (handleWeather_error_body (weatherEnv (.finite 5010420900022432 971))
      ⟨"GET", "/weather/01310-100"⟩ (by decide!)).1 (by decide!),
    (handleWeather_error_body offlineEnv ⟨"PUT", "/weather/123"⟩ (by decide)).2 (by decide)⟩

/-- C6 (as stated) fails: the 405 response to `POST /weather/01310100` has
the plain-text body written by `http.Error`, which is not a JSON object with a
`message` member. -/
theorem handleWeather_error_body_counterexample :
    (handleWeather offlineEnv ⟨"POST", "/weather/01310100"⟩).1 =
      { status := 405
        header := [("Content-Type", "text/plain; charset=utf-8"),
                   ("X-Content-Type-Options", "nosniff")]
        body := .text "Method not allowed\n" } ∧
    (handleWeather offlineEnv ⟨"POST", "/weather/01310100"⟩).1.body.message? = none := by
  exact ⟨by decide, by decide⟩

/-! ## The binary64 model: rounding is to nearest, ties to even

`mul`, `add` and `fma` hand the exact result to `round`; the theorems below
show that `round` returns the nearest representable value. -/

namespace Float64

/-- The worker of `log2` brackets its argument between two powers of two. -/
theorem log2Aux_spec (fuel n : Nat) (hn : 0 < n) (hf : n ≤ fuel) :
    2 ^ log2Aux fuel n ≤ n ∧ n < 2 ^ (log2Aux fuel n + 1) := by
  induction fuel generalizing n with
  | zero => omega
  | succ fuel ih =>
    unfold log2Aux
    by_cases h2 : n < 2
    · rw [if_pos h2]
      simp
      omega
    · rw [if_neg h2]
      have ih' := ih (n / 2) (by omega) (by omega)
      generalize log2Aux fuel (n / 2) = k at ih'
      rw [pow_succ, pow_succ, pow_succ]
      rw [pow_succ] at ih'
      generalize 2 ^ k = p at ih'
      omega

/-- The result of `log2` is the position of the leading bit. -/
theorem log2_spec (n : Nat) (hn : 0 < n) :
    2 ^ log2 n ≤ n ∧ n < 2 ^ (log2 n + 1) :=
  log2Aux_spec n n hn (Nat.le_refl n)

/-- From `2 ^ a ≤ n` and `d < 2 ^ (b + 1)`: `2 ^ (a - b - 1) ≤ n / d`. -/
theorem pow_le_ratio (n d a b : Nat) (ha : 2 ^ a ≤ n) (hb : d < 2 ^ (b + 1)) :
    d * 2 ^ ((a : Int) - b - 1).toNat ≤ n * 2 ^ (-((a : Int) - b - 1)).toNat := by
  rcases Nat.lt_or_ge b a with hab | hab
  · obtain ⟨c, rfl⟩ : ∃ c, a = b + 1 + c := ⟨a - b - 1, by omega⟩
    have e1 : (((b + 1 + c : Nat) : Int) - b - 1).toNat = c := by omega
    have e2 : (-(((b + 1 + c : Nat) : Int) - b - 1)).toNat = 0 := by omega
    rw [e1, e2, pow_zero, Nat.mul_one]
    calc d * 2 ^ c ≤ 2 ^ (b + 1) * 2 ^ c := Nat.mul_le_mul_right _ (Nat.le_of_lt hb)
      _ = 2 ^ (b + 1 + c) := (pow_add 2 (b + 1) c).symm
      _ ≤ n := ha
  · obtain ⟨c, rfl⟩ : ∃ c, b = a + c := ⟨b - a, by omega⟩
    have e1 : ((a : Int) - ((a + c : Nat) : Int) - 1).toNat = 0 := by omega
    have e2 : (-((a : Int) - ((a + c : Nat) : Int) - 1)).toNat = c + 1 := by omega
    rw [e1, e2, pow_zero, Nat.mul_one]
    calc d ≤ 2 ^ (a + c + 1) := Nat.le_of_lt hb
      _ = 2 ^ a * 2 ^ (c + 1) := by rw [← pow_add, Nat.add_assoc]
      _ ≤ n * 2 ^ (c + 1) := Nat.mul_le_mul_right _ ha

/-- From `n < 2 ^ (a + 1)` and `2 ^ b ≤ d`: `n / d < 2 ^ (a - b + 1)`. -/
theorem ratio_lt_pow (n d a b : Nat) (ha : n < 2 ^ (a + 1)) (hb : 2 ^ b ≤ d) :
    n * 2 ^ (-((a : Int) - b + 1)).toNat < d * 2 ^ ((a : Int) - b + 1).toNat := by
  rcases Nat.lt_or_ge (a + 1) b with hab | hab
  · obtain ⟨c, rfl⟩ : ∃ c, b = a + 1 + (c + 1) := ⟨b - a - 2, by omega⟩
    have e1 : ((a : Int) - ((a + 1 + (c + 1) : Nat) : Int) + 1).toNat = 0 := by omega
    have e2 : (-((a : Int) - ((a + 1 + (c + 1) : Nat) : Int) + 1)).toNat = c + 1 := by omega
    rw [e1, e2, pow_zero, Nat.mul_one]
    calc n * 2 ^ (c + 1) < 2 ^ (a + 1) * 2 ^ (c + 1) :=
          Nat.mul_lt_mul_of_pos_right ha (by positivity)
      _ = 2 ^ (a + 1 + (c + 1)) := (pow_add 2 (a + 1) (c + 1)).symm
      _ ≤ d := hb
  · obtain ⟨c, hc⟩ : ∃ c, a + 1 = b + c := ⟨a + 1 - b, by omega⟩
    have e1 : ((a : Int) - (b : Int) + 1).toNat = c := by omega
    have e2 : (-((a : Int) - (b : Int) + 1)).toNat = 0 := by omega
    rw [e1, e2, pow_zero, Nat.mul_one]
    calc n < 2 ^ (a + 1) := ha
      _ = 2 ^ b * 2 ^ c := by rw [hc, pow_add]
      _ ≤ d * 2 ^ c := Nat.mul_le_mul_right _ hb

/-- The exponent computed by `floorLog2` brackets the ratio:
`2 ^ k ≤ n / d < 2 ^ (k + 1)`. -/
theorem floorLog2_spec (n d : Nat) (hn : 0 < n) (hd : 0 < d) :
    d * 2 ^ (floorLog2 n d).toNat ≤ n * 2 ^ (-(floorLog2 n d)).toNat ∧
    n * 2 ^ (-(floorLog2 n d + 1)).toNat < d * 2 ^ (floorLog2 n d + 1).toNat := by
  obtain ⟨ha1, ha2⟩ := log2_spec n hn
  obtain ⟨hb1, hb2⟩ := log2_spec d hd
  unfold floorLog2
  simp only
  by_cases htest : d * 2 ^ ((log2 n : Int) - (log2 d : Int)).toNat ≤
      n * 2 ^ (-((log2 n : Int) - (log2 d : Int))).toNat
  · rw [if_pos htest]
    exact ⟨htest, ratio_lt_pow n d _ _ ha2 hb1⟩
  · rw [if_neg htest]
    refine ⟨pow_le_ratio n d _ _ ha1 hb2, ?_⟩
    rw [sub_add_cancel]
    exact Nat.lt_of_not_le htest


/-- An integer power of two as a quotient of natural powers. -/
theorem zpow_split (k : Int) :
    (2 : ℚ) ^ k = (2 ^ k.toNat : ℚ) / (2 ^ (-k).toNat : ℚ) := by
  rcases Int.le_total 0 k with hk | hk
  · obtain ⟨c, rfl⟩ := Int.eq_ofNat_of_zero_le hk
    have e1 : ((c : Int)).toNat = c := by omega
    have e2 : (-(c : Int)).toNat = 0 := by omega
    rw [e1, e2, zpow_natCast]
    simp
  · obtain ⟨c, hc⟩ := Int.eq_ofNat_of_zero_le (Int.neg_nonneg_of_nonpos hk)
    have e1 : k.toNat = 0 := by omega
    have e2 : (-k).toNat = c := by omega
    have e3 : k = -(c : Int) := by omega
    rw [e1, e2, e3, zpow_neg, zpow_natCast]
    simp

/-- The rounding step on the scaled value `num / den`: the chosen significand
is a nearest integer, and an even one in case of a tie. -/
theorem nearest_even (num den : Nat) (hden : 0 < den) :
    2 * ((if den < 2 * (num % den) ∨ (2 * (num % den) = den ∧ num / den % 2 = 1)
        then num / den + 1 else num / den) * den) ≤ 2 * num + den ∧
    2 * num ≤ 2 * ((if den < 2 * (num % den) ∨ (2 * (num % den) = den ∧ num / den % 2 = 1)
        then num / den + 1 else num / den) * den) + den ∧
    ((2 * num = 2 * ((if den < 2 * (num % den) ∨ (2 * (num % den) = den ∧ num / den % 2 = 1)
        then num / den + 1 else num / den) * den) + den ∨
      2 * num + den = 2 * ((if den < 2 * (num % den) ∨
          (2 * (num % den) = den ∧ num / den % 2 = 1)
        then num / den + 1 else num / den) * den)) →
      (if den < 2 * (num % den) ∨ (2 * (num % den) = den ∧ num / den % 2 = 1)
        then num / den + 1 else num / den) % 2 = 0) := by
  have hdm : den * (num / den) + num % den = num := Nat.div_add_mod num den
  have hr : num % den < den := Nat.mod_lt _ hden
  generalize num / den = m0 at *
  generalize num % den = r at *
  have hx : (m0 + 1) * den = den * m0 + den := by ring
  have hy : m0 * den = den * m0 := by ring
  split_ifs with h
  · rw [hx]
    generalize den * m0 = x at *
    omega
  · rw [hy]
    generalize den * m0 = x at *
    omega


/-- The bracket of `floorLog2_spec`, over the rationals. -/
theorem floorLog2_bracket (n d : Nat) (hn : 0 < n) (hd : 0 < d) :
    (2 : ℚ) ^ floorLog2 n d ≤ (n : ℚ) / d ∧ (n : ℚ) / d < (2 : ℚ) ^ (floorLog2 n d + 1) := by
  obtain ⟨h1, h2⟩ := floorLog2_spec n d hn hd
  have hdq : (0 : ℚ) < d := by exact_mod_cast hd
  constructor
  · rw [zpow_split, div_le_div_iff₀ (by positivity) hdq]
    have h1' : ((d * 2 ^ (floorLog2 n d).toNat : Nat) : ℚ) ≤
        ((n * 2 ^ (-(floorLog2 n d)).toNat : Nat) : ℚ) := by exact_mod_cast h1
    push_cast at h1'
    linarith
  · rw [zpow_split, div_lt_div_iff₀ hdq (by positivity)]
    have h2' : ((n * 2 ^ (-(floorLog2 n d + 1)).toNat : Nat) : ℚ) <
        ((d * 2 ^ (floorLog2 n d + 1).toNat : Nat) : ℚ) := by exact_mod_cast h2
    push_cast at h2'
    linarith

/-- Correctness of `round`: the result is the multiple `m * 2 ^ q` of the
binary64 spacing `2 ^ q` at `n / d` (53 significant bits, no bit below
`2 ^ (-1074)`) that is nearest to `n / d`, the even one in case of a tie, or
an infinity when that multiple reaches `2 ^ 1024`. -/
theorem round_nearest (negative : Bool) (n d : Nat) (hn : 0 < n) (hd : 0 < d) :
    ∃ (m : Nat) (q : Int),
      round negative n d =
        (if 2 ^ 1024 ≤ m * 2 ^ q.toNat then inf negative
         else finite (if negative then -(m : Int) else m) q) ∧
      -1074 ≤ q ∧ m ≤ 2 ^ 53 ∧ (2 ^ 52 ≤ m ∨ q = -1074) ∧
      |(n : ℚ) / d - m * (2 : ℚ) ^ q| ≤ (2 : ℚ) ^ q / 2 ∧
      (|(n : ℚ) / d - m * (2 : ℚ) ^ q| = (2 : ℚ) ^ q / 2 → m % 2 = 0) := by
  have hne : n ≠ 0 := by omega
  obtain ⟨hE1, hE2⟩ := floorLog2_bracket n d hn hd
  unfold round
  rw [if_neg hne]
  simp only []
  generalize floorLog2 n d = E at hE1 hE2 ⊢
  generalize hq : max (E - 52) (-1074) = q
  have hq1 : -1074 ≤ q := by rw [← hq]; exact le_max_right _ _
  have hq2 : E - 52 ≤ q := by rw [← hq]; exact le_max_left _ _
  have hq3 : q = E - 52 ∨ q = -1074 := by
    rw [← hq]; exact max_choice _ _
  generalize hnum : n * 2 ^ (-q).toNat = num
  generalize hden : d * 2 ^ q.toNat = den
  have hdenpos : 0 < den := by rw [← hden]; positivity
  have h2q : (0 : ℚ) < (2 : ℚ) ^ q := by positivity
  have hdenq : (0 : ℚ) < den := by exact_mod_cast hdenpos
  have hdq : (0 : ℚ) < d := by exact_mod_cast hd
  have hscale : (num : ℚ) / den = (n : ℚ) / d / (2 : ℚ) ^ q := by
    rw [zpow_split q, ← hnum, ← hden]
    push_cast
    field_simp
  obtain ⟨hn1, hn2, hn3⟩ := nearest_even num den hdenpos
  generalize hm : (if den < 2 * (num % den) ∨ (2 * (num % den) = den ∧ num / den % 2 = 1)
        then num / den + 1 else num / den) = m at hn1 hn2 hn3 ⊢
  have hm0 : num / den ≤ m ∧ m ≤ num / den + 1 := by
    rw [← hm]; split_ifs <;> omega
  -- the scaled value is below `2 ^ 53`
  have hup : (num : ℚ) / den < 2 ^ 53 := by
    rw [hscale, div_lt_iff₀ h2q]
    calc (n : ℚ) / d < (2 : ℚ) ^ (E + 1) := hE2
      _ ≤ (2 : ℚ) ^ (53 + q) := zpow_le_zpow_right₀ (by norm_num) (by omega)
      _ = 2 ^ 53 * (2 : ℚ) ^ q := by
        rw [zpow_add₀ (by norm_num)]; norm_cast
  have hupN : num < den * 2 ^ 53 := by
    rw [div_lt_iff₀ hdenq] at hup
    have : (num : ℚ) < ((den * 2 ^ 53 : Nat) : ℚ) := by push_cast; linarith
    exact_mod_cast this
  have hm0lt : num / den < 2 ^ 53 := Nat.div_lt_of_lt_mul hupN
  refine ⟨m, q, rfl, hq1, by omega, ?_, ?_, ?_⟩
  · rcases hq3 with hq3 | hq3
    · left
      have hlow : (2 : ℚ) ^ 52 ≤ (num : ℚ) / den := by
        rw [hscale, le_div_iff₀ h2q]
        calc (2 : ℚ) ^ 52 * (2 : ℚ) ^ q = (2 : ℚ) ^ (52 + q) := by
              rw [zpow_add₀ (by norm_num)]; norm_cast
          _ = (2 : ℚ) ^ E := by rw [hq3]; congr 1; ring
          _ ≤ (n : ℚ) / d := hE1
      have hlowN : 2 ^ 52 * den ≤ num := by
        rw [le_div_iff₀ hdenq] at hlow
        have : ((2 ^ 52 * den : Nat) : ℚ) ≤ (num : ℚ) := by push_cast; linarith
        exact_mod_cast this
      have : 2 ^ 52 ≤ num / den := (Nat.le_div_iff_mul_le hdenpos).2 hlowN
      omega
    · right; exact hq3
  · have hval : (n : ℚ) / d = (num : ℚ) / den * (2 : ℚ) ^ q := by
      rw [hscale]; field_simp; ring
    have h1 : (2 * (m * den) : ℚ) ≤ 2 * num + den := by exact_mod_cast hn1
    have h2 : (2 * num : ℚ) ≤ 2 * (m * den) + den := by exact_mod_cast hn2
    rw [hval, ← sub_mul, abs_mul, abs_of_pos h2q]
    have : |(num : ℚ) / den - m| ≤ 1 / 2 := by
      rw [abs_le]
      constructor
      · rw [le_sub_iff_add_le, le_div_iff₀ hdenq]; linarith
      · rw [sub_le_iff_le_add, div_le_iff₀ hdenq]; linarith
    calc |(num : ℚ) / den - m| * (2 : ℚ) ^ q ≤ 1 / 2 * (2 : ℚ) ^ q :=
          mul_le_mul_of_nonneg_right this (le_of_lt h2q)
      _ = (2 : ℚ) ^ q / 2 := by ring
  · intro htie
    apply hn3
    have hval : (n : ℚ) / d = (num : ℚ) / den * (2 : ℚ) ^ q := by
      rw [hscale]; field_simp; ring
    rw [hval, ← sub_mul, abs_mul, abs_of_pos h2q] at htie
    have habs : |(num : ℚ) / den - m| = 1 / 2 := by
      have h2q' : (2 : ℚ) ^ q ≠ 0 := ne_of_gt h2q
      have : |(num : ℚ) / den - m| * (2 : ℚ) ^ q = 1 / 2 * (2 : ℚ) ^ q := by
        rw [htie]; ring
      exact mul_right_cancel₀ h2q' this
    rcases abs_eq (by norm_num : (0 : ℚ) ≤ 1 / 2) |>.1 habs with h | h
    · left
      have : (num : ℚ) = m * den + den / 2 := by
        field_simp at h ⊢; linarith
      have : ((2 * num : Nat) : ℚ) = ((2 * (m * den) + den : Nat) : ℚ) := by
        push_cast; linarith
      exact_mod_cast this
    · right
      have : (num : ℚ) = m * den - den / 2 := by
        field_simp at h ⊢; linarith
      have : ((2 * num + den : Nat) : ℚ) = ((2 * (m * den) : Nat) : ℚ) := by
        push_cast; linarith
      exact_mod_cast this

/-- The ratio handed to `round` by `roundScaled` is the magnitude of
`m * 2 ^ e`. -/
theorem roundScaled_ratio (m e : Int) :
    ((m.natAbs * 2 ^ e.toNat : Nat) : ℚ) / ((2 ^ (-e).toNat : Nat) : ℚ) =
      |(m : ℚ)| * (2 : ℚ) ^ e := by
  rw [zpow_split e]
  push_cast
  rw [Nat.cast_natAbs, Int.cast_abs]
  ring

/-- The integer handed to `roundScaled` by `add`, scaled by the smaller of
the two exponents, is the exact sum. -/
theorem add_exact (m₁ e₁ m₂ e₂ : Int) :
    ((m₁ * ((2 ^ (e₁ - min e₁ e₂).toNat : Nat) : Int) +
      m₂ * ((2 ^ (e₂ - min e₁ e₂).toNat : Nat) : Int) : Int) : ℚ) * (2 : ℚ) ^ (min e₁ e₂) =
      (m₁ : ℚ) * (2 : ℚ) ^ e₁ + (m₂ : ℚ) * (2 : ℚ) ^ e₂ := by
  have key : ∀ k : Int, 0 ≤ k → ((2 ^ k.toNat : Nat) : ℚ) = (2 : ℚ) ^ k := by
    intro k hk
    have e0 : (-k).toNat = 0 := by omega
    rw [zpow_split k, e0]
    simp
  have h1 := key (e₁ - min e₁ e₂) (by omega)
  have h2 := key (e₂ - min e₁ e₂) (by omega)
  push_cast at h1 h2 ⊢
  rw [h1, h2, add_mul, mul_assoc, mul_assoc, ← zpow_add₀ (by norm_num), ← zpow_add₀ (by norm_num)]
  simp

end Float64

/-! ## Unit conversion -/

/-- C7 (failing input): with each operation rounded to `float64`,
`celsiusToFahrenheit(28.5)` is 5861716389999412 * 2^-46 (printed
83.30000000000001), the `float64` next above the value 5861716389999411 *
2^-46 of the constant 83.3, so the comparison with 83.3 made by
`TestCelsiusToFahrenheit` is false. -/
theorem celsiusToFahrenheit_28_5 :
    Float64.ofRat 285 10 = .finite 8022036836253696 (-48) ∧
    Float64.ofRat 18 10 = .finite 8106479329266893 (-52) ∧
    Float64.mul (.finite 8022036836253696 (-48)) (.finite 8106479329266893 (-52)) =
      .finite 7219833152628327 (-47) ∧
    celsiusToFahrenheit (Float64.ofRat 285 10) = .finite 5861716389999412 (-46) ∧
    Float64.ofRat 833 10 = .finite 5861716389999411 (-46) ∧
    Float64.eq (celsiusToFahrenheit (Float64.ofRat 285 10)) (Float64.ofRat 833 10) = false := by
  refine ⟨?_, ?_, ?_, ?_, ?_, ?_⟩ <;> decide!

/-- The other three cases of `TestCelsiusToFahrenheit` hold, and the function
is the `float64` formula `celsius*1.8 + 32`. -/
theorem celsiusToFahrenheit_other_cases :
    (∀ c, celsiusToFahrenheit c =
      Float64.add (Float64.mul c (Float64.ofRat 18 10)) (Float64.ofRat 32 1)) ∧
    Float64.eq (celsiusToFahrenheit (Float64.ofRat 0 1)) (Float64.ofRat 32 1) = true ∧
    Float64.eq (celsiusToFahrenheit (Float64.ofRat 100 1)) (Float64.ofRat 212 1) = true ∧
    Float64.eq (celsiusToFahrenheit (Float64.ofRat (-10) 1)) (Float64.ofRat 14 1) = true := by
  refine ⟨fun _ => rfl, ?_, ?_, ?_⟩ <;> decide!

/-- On a target where the compiler fuses `celsius*1.8 + 32` into one
multiply-add, all four cases of `TestCelsiusToFahrenheit` hold. -/
theorem celsiusToFahrenheitFused_cases :
    Float64.eq (celsiusToFahrenheitFused (Float64.ofRat 0 1)) (Float64.ofRat 32 1) = true ∧
    Float64.eq (celsiusToFahrenheitFused (Float64.ofRat 285 10)) (Float64.ofRat 833 10) = true ∧
    Float64.eq (celsiusToFahrenheitFused (Float64.ofRat 100 1)) (Float64.ofRat 212 1) = true ∧
    Float64.eq (celsiusToFahrenheitFused (Float64.ofRat (-10) 1)) (Float64.ofRat 14 1) = true := by
  refine ⟨?_, ?_, ?_, ?_⟩ <;> decide!

/-- C8: `celsiusToKelvin(c)` is the `float64` sum `c + 273` for every `c`;
in particular `celsiusToKelvin(0) = 273`, `celsiusToKelvin(-273) = 0`,
`celsiusToKelvin(-10) = 263` and `celsiusToKelvin(28.5) = 301.5`. -/
theorem celsiusToKelvin_spec :
    (∀ c, celsiusToKelvin c = Float64.add c (Float64.ofRat 273 1)) ∧
    Float64.eq (celsiusToKelvin (Float64.ofRat 0 1)) (Float64.ofRat 273 1) = true ∧
    Float64.eq (celsiusToKelvin (Float64.ofRat (-273) 1)) (Float64.ofRat 0 1) = true ∧
    Float64.eq (celsiusToKelvin (Float64.ofRat (-10) 1)) (Float64.ofRat 263 1) = true ∧
    Float64.eq (celsiusToKelvin (Float64.ofRat 285 10)) (Float64.ofRat 3015 10) = true := by
  refine ⟨fun _ => rfl, ?_, ?_, ?_, ?_⟩ <;> decide!

/-! ## The postal lookup -/

/-- C10: whenever `handleWeather` makes an outbound request, the first one is
the postal lookup, and the code interpolated into its URL (the trimmed rest of
the path without hyphens) is exactly eight ASCII digits; any further request
is the one made by `getTemperature`. -/
theorem handleWeather_lookup_code (env : Env) (r : Request) :
    (handleWeather env r).2 = [] ∨
    ∃ code rest,
      (handleWeather env r).2 = ("https://viacep.com.br/ws/" ++ code ++ "/json/") :: rest ∧
      code = GoStrings.replaceAll
        (GoStrings.trimSpace (GoStrings.trimPrefix r.path "/weather/")) "-" "" ∧
      code.data.length = 8 ∧
      (∀ c ∈ code.data, c ∈ ['0', '1', '2', '3', '4', '5', '6', '7', '8', '9']) ∧
      (∀ u ∈ rest, ∃ location, (getTemperature env location).2 = [u]) := by
  by_cases hm : r.method = "GET"
  · cases hv : isValidCEPFormat
      (GoStrings.trimSpace (GoStrings.trimPrefix r.path "/weather/")) with
    | false =>
      left
      rw [handleWeather_malformed env r hm hv]
    | true =>
      right
      have hcode := (matchString_cepPattern _).1 hv
      simp only [digit_iff] at hcode
      rw [handleWeather_wellformed env r hm hv]
      have hreq := getLocationByCEP_requests env
        (GoStrings.trimSpace (GoStrings.trimPrefix r.path "/weather/"))
      rcases hlk : getLocationByCEP env
        (GoStrings.trimSpace (GoStrings.trimPrefix r.path "/weather/")) with ⟨res, reqs⟩
      rw [hlk] at hreq
      simp only at hreq
      subst hreq
      cases res with
      | error err =>
        refine ⟨_, [], ?_, rfl, hcode.1, hcode.2, by simp⟩
        by_cases hnf : err = "zipcode not found" <;> simp [hnf]
      | ok location =>
        simp only []
        rcases hf : getTemperature env location with ⟨res₂, reqs₂⟩
        have hreq₂ := getTemperature_requests env location
        rw [hf] at hreq₂
        simp only at hreq₂
        refine ⟨_, reqs₂, ?_, rfl, hcode.1, hcode.2, ?_⟩
        · cases res₂ <;> simp
        · intro u hu
          refine ⟨location, ?_⟩
          rw [hf]
          rw [hreq₂] at hu ⊢
          simp only [List.mem_singleton] at hu
          simp [hu]
  · left
    rw [handleWeather_other_method env r hm]

/-- The request `GET /weather/01310-100` does reach the lookup service, with
the code 01310100, and then the weather service. -/
theorem handleWeather_lookup_code_example :
    (handleWeather (weatherEnv (.finite 57 (-1))) ⟨"GET", "/weather/01310-100"⟩).2 =
      ["https://viacep.com.br/ws/01310100/json/",
       "http://api.weatherapi.com/v1/current.json?key=demo&q=S%C3%A3o+Paulo"] := by
  decide

end WeatherService
